import Mathlib

/-!
Verification development for the CommentsSystem repository.

Shallow embedding of the in-memory storage backend
(internal/repository/memory.go), the domain entities
(internal/model/entities.go), the flat-to-tree converter
(internal/converter, TreeConverter) and the pub/sub broadcaster
(pkg/pubsub).

Modelling conventions:
- uuid.UUID is modelled as Nat; uuid.Nil is 0.
- time.Time is modelled as Nat; the zero time is 0; Before is <, After is >.
- Go maps keyed by uuid are modelled as lists whose entries carry their own
  key (the stored entity's ID field equals its map key throughout the Go
  code); insertion appends, deletion filters, lookup is List.find?.
- uuid.New() and time.Now() are modelled by explicit parameters genId / now.
- Recursive tree construction and cascade deletion in the Go code terminate
  only on acyclic comment graphs (the repository invariant); they are
  embedded with an explicit fuel parameter, instantiated by the callers
  with a bound that suffices on acyclic inputs.
-/

set_option autoImplicit false

namespace CommentsSystem

/-- Domain model Post (internal/model/entities.go). -/
structure Post where
  id : Nat
  title : String
  content : String
  commentsEnabled : Bool
  createdAt : Nat
deriving Repr, DecidableEq

/-- Domain model Comment (internal/model/entities.go). -/
structure Comment where
  id : Nat
  postID : Nat
  parentID : Option Nat
  content : String
  createdAt : Nat
deriving Repr, DecidableEq

/-- Post.IsValidTitle: 1..255 characters. -/
def Post.isValidTitle (p : Post) : Bool :=
  0 < p.title.length && p.title.length ≤ 255

/-- Post.IsValidContent: 1..10000 characters. -/
def Post.isValidContent (p : Post) : Bool :=
  0 < p.content.length && p.content.length ≤ 10000

/-- Post.IsValid. -/
def Post.isValid (p : Post) : Bool :=
  p.isValidTitle && p.isValidContent

/-- Comment.IsValidComment: content 1..2000 characters. -/
def Comment.isValidComment (c : Comment) : Bool :=
  0 < c.content.length && c.content.length ≤ 2000

/-- Comment.HasValidPost: PostID is not uuid.Nil. -/
def Comment.hasValidPost (c : Comment) : Bool :=
  c.postID != 0

/-- Comment.IsValid. -/
def Comment.isValid (c : Comment) : Bool :=
  c.isValidComment && c.hasValidPost

/-- Comment.IsRootComment: ParentID is nil. -/
def Comment.isRootComment (c : Comment) : Bool :=
  c.parentID.isNone

/-- CommentTree (internal/model/entities.go): a comment with nested
children. -/
inductive CommentTree where
  | node (comment : Comment) (children : List CommentTree)
deriving Repr

/-- The embedded comment of a tree node. -/
def CommentTree.comment : CommentTree → Comment
  | .node c _ => c

/-- The children of a tree node. -/
def CommentTree.children : CommentTree → List CommentTree
  | .node _ cs => cs

/-- CommentTree.HasChildren. -/
def CommentTree.hasChildren (t : CommentTree) : Bool :=
  t.children.length > 0

/-- CommentTree.GetChildrenCount. -/
def CommentTree.getChildrenCount (t : CommentTree) : Nat :=
  t.children.length

/-- Error values returned by the storage layer. The first four are the
typed sentinels of internal/repository (errors.go); the last four are the
ad-hoc fmt.Errorf values that MemoryStorage.CreateComment and the
post-existence checks actually return, named after their messages. -/
inductive StorageErr where
  | errNotFound
  | errDuplicate
  | errInvalidInput
  | errConnectionFailed
  | postNotFound
  | commentsDisabled
  | parentCommentNotFound
  | parentDifferentPost
deriving Repr, DecidableEq

/-- The NotFound class of the error taxonomy (spec section 7): an entity
(post, comment or parent) is absent. -/
def StorageErr.isNotFoundClass : StorageErr → Bool
  | .errNotFound => true
  | .postNotFound => true
  | .parentCommentNotFound => true
  | .parentDifferentPost => true
  | _ => false

/-- The CommentsDisabled class of the error taxonomy (spec section 7). -/
def StorageErr.isCommentsDisabledClass : StorageErr → Bool
  | .commentsDisabled => true
  | _ => false

/-- MemoryStorage (internal/repository/memory.go): posts and comments maps
plus the closed flag. -/
structure MemoryStorage where
  posts : List Post
  comments : List Comment
  closed : Bool
deriving Repr, DecidableEq

/-- Map lookup in the posts map. -/
def lookupPost (l : List Post) (id : Nat) : Option Post :=
  l.find? (fun p => p.id == id)

/-- Map lookup in the comments map. -/
def lookupComment (l : List Comment) (id : Nat) : Option Comment :=
  l.find? (fun c => c.id == id)

/-- The tail of MemoryStorage.CreateComment (memory.go lines 354-391):
build the internal copy (discarding the caller's ID and CreatedAt, which
the copy literal omits), generate the ID and creation time, validate,
check for an ID collision, store, and return a copy. -/
def MemoryStorage.insertNewComment (s : MemoryStorage) (genId now : Nat)
    (c : Comment) : Except StorageErr Comment × MemoryStorage :=
  let base : Comment :=
    { id := 0, postID := c.postID, parentID := c.parentID,
      content := c.content, createdAt := 0 }
  let withId := if base.id == 0 then { base with id := genId } else base
  let newComment :=
    if withId.createdAt == 0 then { withId with createdAt := now }
    else withId
  if !newComment.isValid then (.error .errInvalidInput, s)
  else if (lookupComment s.comments newComment.id).isSome then
    (.error .errDuplicate, s)
  else (.ok newComment, { s with comments := s.comments ++ [newComment] })

/-- MemoryStorage.CreateComment (memory.go lines 319-392). genId models
uuid.New(), now models time.Now(). Error branches leave the state
untouched, mirroring the Go method which only assigns to the map in its
last step. -/
def MemoryStorage.createComment (s : MemoryStorage) (genId now : Nat)
    (c : Comment) : Except StorageErr Comment × MemoryStorage :=
  if s.closed then (.error .errConnectionFailed, s)
  else
    match lookupPost s.posts c.postID with
    | none => (.error .postNotFound, s)
    | some post =>
      if !post.commentsEnabled then (.error .commentsDisabled, s)
      else
        match c.parentID with
        | none => s.insertNewComment genId now c
        | some pid =>
          match lookupComment s.comments pid with
          | none => (.error .parentCommentNotFound, s)
          | some parent =>
            if parent.postID != c.postID then (.error .parentDifferentPost, s)
            else s.insertNewComment genId now c

/-- MemoryStorage.GetComment (memory.go lines 394-416). -/
def MemoryStorage.getComment (s : MemoryStorage) (id : Nat) :
    Except StorageErr Comment :=
  if s.closed then .error .errConnectionFailed
  else
    match lookupComment s.comments id with
    | none => .error .errNotFound
    | some c => .ok c

/-- Insert an element into a list ordered by a Nat key; used to model
sort.Slice with a Before (strict less-than) comparator. -/
def insertByKey {α : Type} (key : α → Nat) (x : α) : List α → List α
  | [] => [x]
  | y :: ys => if key x < key y then x :: y :: ys else y :: insertByKey key x ys

/-- Insertion sort by a Nat key, ascending. Models the sort.Slice calls of
memory.go whose comparator is CreatedAt.Before. -/
def sortByKey {α : Type} (key : α → Nat) : List α → List α
  | [] => []
  | x :: xs => insertByKey key x (sortByKey key xs)

/-- MemoryStorage.GetCommentsByPostID (memory.go lines 418-453): all
comments of a post, sorted by creation time ascending; an absent post is
an error. -/
def MemoryStorage.getCommentsByPostID (s : MemoryStorage) (postID : Nat) :
    Except StorageErr (List Comment) :=
  if s.closed then .error .errConnectionFailed
  else if (lookupPost s.posts postID).isNone then .error .postNotFound
  else
    .ok (sortByKey (fun c => c.createdAt)
      (s.comments.filter (fun c => c.postID == postID)))

/-- Pagination of memory.go (GetPosts, GetCommentsByParentID,
GetRootCommentsByPostID): limit at most 0 defaults to 10, negative offset
clamps to 0, an offset at or past the end yields the empty slice,
otherwise the slice start..min(start+limit, len). -/
def paginate {α : Type} (l : List α) (limit offst : Int) : List α :=
  let lim := if limit ≤ 0 then (10 : Int) else limit
  let off := if offst < 0 then (0 : Int) else offst
  let start := off.toNat
  if start ≥ l.length then []
  else (l.drop start).take lim.toNat

/-- The stored root comments of a post, in storage (= insertion) order:
the collection loop of GetRootCommentsByPostID (memory.go lines 529-541). -/
def MemoryStorage.rootsOf (s : MemoryStorage) (postID : Nat) : List Comment :=
  s.comments.filter (fun c => c.postID == postID && c.parentID.isNone)

/-- MemoryStorage.GetRootCommentsByPostID (memory.go lines 506-560): root
comments of a post, sorted by creation time ascending, paginated. -/
def MemoryStorage.getRootCommentsByPostID (s : MemoryStorage) (postID : Nat)
    (limit offst : Int) : Except StorageErr (List Comment) :=
  if s.closed then .error .errConnectionFailed
  else if (lookupPost s.posts postID).isNone then .error .postNotFound
  else
    .ok (paginate (sortByKey (fun c => c.createdAt) (s.rootsOf postID))
      limit offst)

/-- MemoryStorage.deleteCommentRecursive (memory.go lines 582-594): delete
the children of id recursively, then id itself. Fuel bounds the recursion
depth; the Go original recurses unboundedly and terminates because the
stored comment graph is acyclic. -/
def deleteCommentRec : Nat → List Comment → Nat → List Comment
  | 0, l, _ => l
  | fuel + 1, l, id =>
    let children := l.filter (fun c => c.parentID == some id)
    let l2 := children.foldl (fun acc c => deleteCommentRec fuel acc c.id) l
    l2.filter (fun c => c.id != id)

/-- MemoryStorage.DeleteComment (memory.go lines 562-580): NotFound if the
comment is absent, otherwise cascade delete. The fuel given to the
recursion is the number of stored comments, which suffices on acyclic
states. -/
def MemoryStorage.deleteComment (s : MemoryStorage) (id : Nat) :
    Except StorageErr Unit × MemoryStorage :=
  if s.closed then (.error .errConnectionFailed, s)
  else if (lookupComment s.comments id).isNone then (.error .errNotFound, s)
  else (.ok (),
    { s with comments := deleteCommentRec s.comments.length s.comments id })

/-- Descendant-or-self relation of the stored parent graph: DescOf l a b
holds when the comment id b is reachable downward from a along child
edges (a stored comment whose ParentID is the current id). DeleteComment
must remove exactly the ids below the deleted one under this relation. -/
inductive DescOf (l : List Comment) : Nat → Nat → Prop where
  | refl (a : Nat) : DescOf l a a
  | child (a b : Nat) (c : Comment) (hc : c ∈ l)
      (hp : c.parentID = some a) (h : DescOf l c.id b) : DescOf l a b

/-- The parent test of buildCommentTree and TreeConverter.buildTree: the
candidate matches when both sides are nil or both are the same id. -/
def parentMatches (parentID : Option Nat) (cp : Option Nat) : Bool :=
  match parentID, cp with
  | none, none => true
  | some p, some q => p == q
  | _, _ => false

/-- MemoryStorage.buildCommentTree (memory.go lines 656-682): collect the
comments whose parent matches, recurse into each, then sort the level by
creation time ascending. Fuel bounds the recursion depth. -/
def buildCommentTreeM : Nat → List Comment → Option Nat → List CommentTree
  | 0, _, _ => []
  | fuel + 1, comments, parentID =>
    let nodes := (comments.filter (fun c => parentMatches parentID c.parentID)).map
      (fun c => CommentTree.node c (buildCommentTreeM fuel comments (some c.id)))
    sortByKey (fun t => t.comment.createdAt) nodes

/-- MemoryStorage.GetCommentTree (memory.go lines 630-654): fetch the
post's comments (sorted), then build the hierarchy from the roots. The
fuel is one more than the number of comments, which suffices on acyclic
states. -/
def MemoryStorage.getCommentTree (s : MemoryStorage) (postID : Nat) :
    Except StorageErr (List CommentTree) :=
  match s.getCommentsByPostID postID with
  | .error e => .error e
  | .ok comments => .ok (buildCommentTreeM (comments.length + 1) comments none)

/-- TreeConverter.buildTree (internal/converter, part of
TreeConverter.BuildCommentTree): collect the comments whose parent
matches, in input order, and recurse; no sorting. Fuel bounds the
recursion depth. -/
def buildTreeConv : Nat → List Comment → Option Nat → List CommentTree
  | 0, _, _ => []
  | fuel + 1, comments, parentID =>
    (comments.filter (fun c => parentMatches parentID c.parentID)).map
      (fun c => CommentTree.node c (buildTreeConv fuel comments (some c.id)))

/-- TreeConverter.BuildCommentTree: nil on an empty input, otherwise the
domain conversion (the identity on our model) followed by buildTree from
the roots. -/
def TreeConverter.buildCommentTree (comments : List Comment) :
    List CommentTree :=
  if comments.isEmpty then []
  else buildTreeConv (comments.length + 1) comments none

/-- pubsub.Message (pkg/pubsub): topic plus payload; the payload type of
the Go interface value is a type parameter here. -/
structure Message (α : Type) where
  topic : String
  data : α
deriving Repr, DecidableEq

/-- pubsub.Subscriber: id and its buffered delivery channel, modelled as
the FIFO queue of undelivered messages. -/
structure Subscriber (α : Type) where
  id : String
  channel : List (Message α)
deriving Repr, DecidableEq

/-- pubsub.PubSub: topic registry (topic name to its subscriber map, keyed
by subscriber id) and the configured channel buffer size. -/
structure PubSub (α : Type) where
  subscribers : List (String × List (Subscriber α))
  channelBufferSize : Int
deriving Repr, DecidableEq

/-- pubsub.DefaultChannelBufferSize. -/
def defaultChannelBufferSize : Int := 100

/-- pubsub.NewWithConfig: a size at most 0 falls back to the default. -/
def PubSub.newWithConfig (α : Type) (channelBufferSize : Int) : PubSub α :=
  { subscribers := [],
    channelBufferSize :=
      if channelBufferSize ≤ 0 then defaultChannelBufferSize
      else channelBufferSize }

/-- pubsub.New. -/
def PubSub.new (α : Type) : PubSub α :=
  PubSub.newWithConfig α defaultChannelBufferSize

/-- Lookup of a topic entry in the registry. -/
def lookupTopic {α : Type} (l : List (String × List (Subscriber α)))
    (topic : String) : Option (List (Subscriber α)) :=
  (l.find? (fun e => e.1 == topic)).map (fun e => e.2)

/-- Registry update: replace the entry of an existing topic, append a new
one otherwise (Go map assignment). -/
def setTopic {α : Type} (l : List (String × List (Subscriber α)))
    (topic : String) (subs : List (Subscriber α)) :
    List (String × List (Subscriber α)) :=
  match l with
  | [] => [(topic, subs)]
  | e :: es =>
    if e.1 == topic then (topic, subs) :: es else e :: setTopic es topic subs

/-- Registry deletion of a topic entry (Go map delete). -/
def removeTopic {α : Type} (l : List (String × List (Subscriber α)))
    (topic : String) : List (String × List (Subscriber α)) :=
  l.filter (fun e => e.1 != topic)

/-- Subscriber-map assignment: replace the subscriber with the same id,
append otherwise (Go map assignment keyed by subscriber id). -/
def putSubscriber {α : Type} (subs : List (Subscriber α))
    (sub : Subscriber α) : List (Subscriber α) :=
  match subs with
  | [] => [sub]
  | t :: ts => if t.id == sub.id then sub :: ts else t :: putSubscriber ts sub

/-- PubSub.Subscribe (pkg/pubsub lines 69-85): create the topic if absent,
register a subscriber with a fresh empty channel, return it. -/
def PubSub.subscribe {α : Type} (ps : PubSub α) (topic subscriberID : String) :
    Subscriber α × PubSub α :=
  let sub : Subscriber α := { id := subscriberID, channel := [] }
  let topicSubs := (lookupTopic ps.subscribers topic).getD []
  (sub, { ps with
    subscribers := setTopic ps.subscribers topic (putSubscriber topicSubs sub) })

/-- PubSub.Unsubscribe (pkg/pubsub lines 94-113): no-op on an absent
topic; otherwise drop the subscriber (closing its channel) and drop the
topic entry itself when no subscriber remains. -/
def PubSub.unsubscribe {α : Type} (ps : PubSub α)
    (topic subscriberID : String) : PubSub α :=
  match lookupTopic ps.subscribers topic with
  | none => ps
  | some topicSubs =>
    let remaining := topicSubs.filter (fun t => t.id != subscriberID)
    if remaining.length == 0 then
      { ps with subscribers := removeTopic ps.subscribers topic }
    else
      { ps with subscribers := setTopic ps.subscribers topic remaining }

/-- The non-blocking send of PubSub.Publish: enqueue when the buffered
channel has free capacity, silently drop otherwise. -/
def trySend {α : Type} (bufSize : Int) (m : Message α) (sub : Subscriber α) :
    Subscriber α :=
  if (sub.channel.length : Int) < bufSize then
    { sub with channel := sub.channel ++ [m] }
  else sub

/-- PubSub.Publish (pkg/pubsub lines 124-149): a total function; absent
topic is a no-op, otherwise every registered subscriber gets a
non-blocking delivery attempt. -/
def PubSub.publish {α : Type} (ps : PubSub α) (topic : String) (data : α) :
    PubSub α :=
  let m : Message α := { topic := topic, data := data }
  match lookupTopic ps.subscribers topic with
  | none => ps
  | some topicSubs =>
    { ps with subscribers :=
        setTopic ps.subscribers topic (topicSubs.map (trySend ps.channelBufferSize m)) }

/-- PubSub.GetSubscribersCount (pkg/pubsub lines 158-167). -/
def PubSub.getSubscribersCount {α : Type} (ps : PubSub α) (topic : String) :
    Nat :=
  match lookupTopic ps.subscribers topic with
  | none => 0
  | some topicSubs => topicSubs.length

/-- PubSub.Close (pkg/pubsub lines 171-184): close every channel and reset
the registry to a fresh empty map. -/
def PubSub.close {α : Type} (ps : PubSub α) : PubSub α :=
  { ps with subscribers := [] }

/-- The topic key for a post's comment stream (spec section 6). -/
def topicName (postID : Nat) : String :=
  "post:" ++ toString postID ++ ":comments"

/-- Modelled from the spec: the GraphQL create-comment use case (resolver
glue) is not under src (only the DI Resolver struct is); spec section 6
specifies it as (b) call Storage.CreateComment, (c) on success publish the
created comment on topic post:<postID>:comments; on failure the error is
returned and the broadcaster is not touched. -/
def resolverCreateComment (s : MemoryStorage) (ps : PubSub Comment)
    (genId now : Nat) (c : Comment) :
    Except StorageErr Comment × MemoryStorage × PubSub Comment :=
  match s.createComment genId now c with
  | (.error e, s2) => (.error e, s2, ps)
  | (.ok created, s2) =>
    (.ok created, s2, ps.publish (topicName created.postID) created)

/-- The broadcaster's operations (Subscribe, Unsubscribe, Publish,
GetSubscribersCount, Close), for stating registry invariants over
arbitrary operation sequences. -/
inductive PSOp (α : Type) where
  | subscribe (topic subscriberID : String)
  | unsubscribe (topic subscriberID : String)
  | publish (topic : String) (data : α)
  | getCount (topic : String)
  | closeAll

/-- State effect of one broadcaster operation (GetSubscribersCount is a
pure read). -/
def PSOp.apply {α : Type} (ps : PubSub α) : PSOp α → PubSub α
  | .subscribe t i => (ps.subscribe t i).2
  | .unsubscribe t i => ps.unsubscribe t i
  | .publish t d => ps.publish t d
  | .getCount _ => ps
  | .closeAll => ps.close

/-- Run a sequence of broadcaster operations. -/
def PubSub.run {α : Type} (ps : PubSub α) (ops : List (PSOp α)) : PubSub α :=
  ops.foldl PSOp.apply ps

/-- Heap of uuid cells, modelling Go pointers of type pointer-to-uuid.UUID
for the copy-on-read analysis: an address maps to the uuid value stored
there. -/
def Heap : Type := Nat → Nat

/-- Heap update (a caller writing through a pointer). -/
def Heap.write (h : Heap) (a v : Nat) : Heap :=
  fun x => if x = a then v else h x

/-- Heap read (pointer dereference). -/
def Heap.read (h : Heap) (a : Nat) : Nat := h a

/-- Pointer-level Comment: the ParentID field holds an address (Go stores
a pointer there), not a uuid value. -/
structure PComment where
  id : Nat
  postID : Nat
  parentPtr : Option Nat
  content : String
  createdAt : Nat
deriving Repr, DecidableEq

/-- The value a pointer-level comment denotes under a heap: ParentID is
the dereferenced uuid. -/
def PComment.view (h : Heap) (pc : PComment) : Comment :=
  { id := pc.id, postID := pc.postID,
    parentID := pc.parentPtr.map (fun a => h.read a),
    content := pc.content, createdAt := pc.createdAt }

/-- Pointer-level in-memory storage state. -/
structure PMemoryStorage where
  posts : List Post
  comments : List PComment
  closed : Bool

/-- Lookup in the pointer-level comments map. -/
def pLookupComment (l : List PComment) (id : Nat) : Option PComment :=
  l.find? (fun c => c.id == id)

/-- Comment.IsValid at the pointer level (validity reads no pointer). -/
def PComment.isValid (c : PComment) : Bool :=
  (0 < c.content.length && c.content.length ≤ 2000) && c.postID != 0

/-- The tail of CreateComment at the pointer level: the copies built for
storage and for the caller both receive the caller's ParentID pointer
unchanged (newComment.ParentID = comment.ParentID, memory.go line 357). -/
def PMemoryStorage.insertNewComment (s : PMemoryStorage) (genId now : Nat)
    (c : PComment) : Except StorageErr PComment × PMemoryStorage :=
  let base : PComment :=
    { id := 0, postID := c.postID, parentPtr := c.parentPtr,
      content := c.content, createdAt := 0 }
  let withId := if base.id == 0 then { base with id := genId } else base
  let newComment :=
    if withId.createdAt == 0 then { withId with createdAt := now }
    else withId
  if !newComment.isValid then (.error .errInvalidInput, s)
  else if (pLookupComment s.comments newComment.id).isSome then
    (.error .errDuplicate, s)
  else (.ok newComment, { s with comments := s.comments ++ [newComment] })

/-- MemoryStorage.CreateComment at the pointer level: identical control
flow to createComment, except that ParentID is a pointer — the parent
check dereferences it through the heap. -/
def PMemoryStorage.createComment (h : Heap) (s : PMemoryStorage)
    (genId now : Nat) (c : PComment) :
    Except StorageErr PComment × PMemoryStorage :=
  if s.closed then (.error .errConnectionFailed, s)
  else
    match lookupPost s.posts c.postID with
    | none => (.error .postNotFound, s)
    | some post =>
      if !post.commentsEnabled then (.error .commentsDisabled, s)
      else
        match c.parentPtr with
        | none => s.insertNewComment genId now c
        | some addr =>
          match pLookupComment s.comments (h.read addr) with
          | none => (.error .parentCommentNotFound, s)
          | some parent =>
            if parent.postID != c.postID then (.error .parentDifferentPost, s)
            else s.insertNewComment genId now c

/-- MemoryStorage.GetComment at the pointer level: the returned copy keeps
the stored ParentID pointer (memory.go line 412). -/
def PMemoryStorage.getComment (s : PMemoryStorage) (id : Nat) :
    Except StorageErr PComment :=
  if s.closed then .error .errConnectionFailed
  else
    match pLookupComment s.comments id with
    | none => .error .errNotFound
    | some c => .ok c

/-- One level of a comment forest is in ascending creation order. -/
def timeOrdered (ts : List CommentTree) : Prop :=
  List.Chain' (fun a b => a.comment.createdAt ≤ b.comment.createdAt) ts

mutual

/-- Every level of a tree, the root level of its children included, is in
ascending creation order. -/
def CommentTree.levelsSorted : CommentTree → Prop
  | .node _ cs => timeOrdered cs ∧ forestLevelsSorted cs

/-- Every level of every tree of a forest is in ascending creation
order. -/
def forestLevelsSorted : List CommentTree → Prop
  | [] => True
  | t :: ts => t.levelsSorted ∧ forestLevelsSorted ts

end

/-- The registry invariant of the broadcaster: every topic present in the
registry has at least one registered subscriber (a topic with zero
subscribers is removed eagerly). -/
def TopicsNonempty {α : Type} (ps : PubSub α) : Prop :=
  ∀ e ∈ ps.subscribers, e.2 ≠ []

/-! Concrete fixtures used by witnesses and by the concrete conjuncts of
the testable-property claims: one post with the three-comment chain
A (root), B (parent A), C (parent B) of the spec's tree-shape and
cascade-delete properties. -/

def exPost : Post :=
  { id := 1, title := "Title", content := "Body",
    commentsEnabled := true, createdAt := 1 }

def exA : Comment :=
  { id := 10, postID := 1, parentID := none, content := "A", createdAt := 10 }

def exB : Comment :=
  { id := 11, postID := 1, parentID := some 10, content := "B", createdAt := 11 }

def exC : Comment :=
  { id := 12, postID := 1, parentID := some 11, content := "C", createdAt := 12 }

/-- The post with the full A, B, C chain stored. -/
def exState : MemoryStorage :=
  { posts := [exPost], comments := [exA, exB, exC], closed := false }

/-- The post with only the root comment A stored. -/
def exStateA : MemoryStorage :=
  { posts := [exPost], comments := [exA], closed := false }

/-- An input comment carrying a caller-chosen ID and CreatedAt, which
CreateComment must discard. -/
def cX : Comment :=
  { id := 77, postID := 1, parentID := some 10, content := "x",
    createdAt := 123 }

/-- A caller-side heap: address 100 holds the uuid 10 (the caller took
the address of comment A's id to build a ParentID pointer). -/
def hp0 : Heap := fun a => if a = 100 then 10 else 0

/-- Pointer-level stored root comment A (ParentID nil). -/
def pA : PComment :=
  { id := 10, postID := 1, parentPtr := none, content := "A", createdAt := 10 }

/-- Pointer-level storage holding the post and comment A. -/
def pS : PMemoryStorage :=
  { posts := [exPost], comments := [pA], closed := false }

/-- Pointer-level input comment whose ParentID pointer is address 100. -/
def pIn : PComment :=
  { id := 0, postID := 1, parentPtr := some 100, content := "B",
    createdAt := 0 }

/-- Root comment created first (time 1) for the converter comparison. -/
def cvA : Comment :=
  { id := 21, postID := 1, parentID := none, content := "r1", createdAt := 1 }

/-- Root comment created second (time 2) for the converter comparison. -/
def cvB : Comment :=
  { id := 22, postID := 1, parentID := none, content := "r2", createdAt := 2 }

/-- The same two root comments listed newest-first: a legitimate
enumeration of the comment set (the memory backend's map has no order). -/
def cvList : List Comment := [cvB, cvA]

/-- The n-th root comment of the pagination fixture, created at time n. -/
def exR (n : Nat) : Comment :=
  { id := 30 + n, postID := 1, parentID := none, content := "r",
    createdAt := n }

/-- A post with five root comments created with strictly increasing
timestamps, for the pagination-determinism property. -/
def exPag : MemoryStorage :=
  { posts := [exPost], comments := [exR 1, exR 2, exR 3, exR 4, exR 5],
    closed := false }

/-- A subscriber whose channel is saturated for buffer size 1. -/
def subFull : Subscriber Nat := { id := "a", channel := [Message.mk "T" 0] }

/-- A subscriber with a free channel. -/
def subEmpty : Subscriber Nat := { id := "b", channel := [] }

/-- A broadcaster with buffer size 1 and one saturated plus one free
subscriber on topic T. -/
def psW : PubSub Nat :=
  { subscribers := [("T", [subFull, subEmpty])], channelBufferSize := 1 }

/-- Unfolding of insertNewComment: the internal copy always receives the
generated id and the fresh time, whatever the caller supplied. -/
theorem insertNewComment_eq (s : MemoryStorage) (genId now : Nat)
    (c : Comment) :
    s.insertNewComment genId now c =
      (if !(Comment.mk genId c.postID c.parentID c.content now).isValid then
        (.error .errInvalidInput, s)
      else if (lookupComment s.comments genId).isSome then
        (.error .errDuplicate, s)
      else (.ok (Comment.mk genId c.postID c.parentID c.content now),
        { s with comments :=
            s.comments ++ [Comment.mk genId c.postID c.parentID c.content now] })) :=
  rfl

/-- CreateComment either fails leaving the state exactly as it was, or
succeeds appending the single new comment to the comments map. -/
theorem createComment_cases (s : MemoryStorage) (genId now : Nat)
    (c : Comment) :
    (∃ e, s.createComment genId now c = (.error e, s)) ∨
    (∃ c2, s.createComment genId now c =
      (.ok c2, { s with comments := s.comments ++ [c2] })) := by
  unfold MemoryStorage.createComment
  split
  · exact Or.inl ⟨_, rfl⟩
  split
  · exact Or.inl ⟨_, rfl⟩
  split
  · exact Or.inl ⟨_, rfl⟩
  split
  · rw [insertNewComment_eq]
    split
    · exact Or.inl ⟨_, rfl⟩
    split
    · exact Or.inl ⟨_, rfl⟩
    · exact Or.inr ⟨_, rfl⟩
  · split
    · exact Or.inl ⟨_, rfl⟩
    · split
      · exact Or.inl ⟨_, rfl⟩
      · rw [insertNewComment_eq]
        split
        · exact Or.inl ⟨_, rfl⟩
        split
        · exact Or.inl ⟨_, rfl⟩
        · exact Or.inr ⟨_, rfl⟩

/-- C10: the in-memory CreateComment builds its internal copy without the
caller's ID and CreatedAt: on success the stored and returned comment
carries the freshly generated id and the fresh time, whatever the caller
supplied; and when the generated id is absent from the comments map, the
Duplicate branch is unreachable. -/
theorem c10_create_comment_fresh_id (s : MemoryStorage) (genId now : Nat)
    (c : Comment) :
    (∀ c2 s2, s.createComment genId now c = (.ok c2, s2) →
      c2 = Comment.mk genId c.postID c.parentID c.content now ∧
      s2 = { s with comments := s.comments ++ [c2] }) ∧
    (lookupComment s.comments genId = none →
      (s.createComment genId now c).1 ≠ .error .errDuplicate) := by
  constructor
  · intro c2 s2 h
    unfold MemoryStorage.createComment at h
    split at h
    · simp at h
    split at h
    · simp at h
    split at h
    · simp at h
    split at h
    · rw [insertNewComment_eq] at h
      split at h
      · simp at h
      split at h
      · simp at h
      · simp only [Prod.mk.injEq, Except.ok.injEq] at h
        exact ⟨h.1.symm, by rw [← h.1, h.2.symm]⟩
    · split at h
      · simp at h
      split at h
      · simp at h
      · rw [insertNewComment_eq] at h
        split at h
        · simp at h
        split at h
        · simp at h
        · simp only [Prod.mk.injEq, Except.ok.injEq] at h
          exact ⟨h.1.symm, by rw [← h.1, h.2.symm]⟩
  · intro hfresh
    unfold MemoryStorage.createComment
    split
    · simp
    split
    · simp
    split
    · simp
    split
    · rw [insertNewComment_eq]
      split
      · simp
      split
      · rename_i hsome
        rw [hfresh] at hsome
        simp at hsome
      · simp
    · split
      · simp
      split
      · simp
      · rw [insertNewComment_eq]
        split
        · simp
        split
        · rename_i hsome
          rw [hfresh] at hsome
          simp at hsome
        · simp

/-- C10 witness: with a caller-supplied ID 77 and CreatedAt 123 and a
fresh generated id 99, the Duplicate branch is not taken. -/
theorem c10_witness :
    (MemoryStorage.createComment exStateA 99 50 cX).1 ≠ .error .errDuplicate :=
  (c10_create_comment_fresh_id exStateA 99 50 cX).2 rfl

/-- C1: on an open storage, CreateComment fails with the post-not-found
error (NotFound class) when the post is absent; with the
comments-disabled error (CommentsDisabled class) when the post's flag is
false; with the parent-not-found or parent-of-different-post error (both
NotFound class) when ParentID is set and dangling or cross-post; and
succeeds when everything is in place and the content is valid. -/
theorem c1_create_comment_error_classes (s : MemoryStorage)
    (genId now : Nat) (c : Comment) (hopen : s.closed = false) :
    (lookupPost s.posts c.postID = none →
      (s.createComment genId now c).1 = .error .postNotFound ∧
      StorageErr.postNotFound.isNotFoundClass = true) ∧
    (∀ post, lookupPost s.posts c.postID = some post →
      post.commentsEnabled = false →
      (s.createComment genId now c).1 = .error .commentsDisabled ∧
      StorageErr.commentsDisabled.isCommentsDisabledClass = true) ∧
    (∀ post pid, lookupPost s.posts c.postID = some post →
      post.commentsEnabled = true → c.parentID = some pid →
      ((lookupComment s.comments pid = none →
        (s.createComment genId now c).1 = .error .parentCommentNotFound ∧
        StorageErr.parentCommentNotFound.isNotFoundClass = true) ∧
      (∀ parent, lookupComment s.comments pid = some parent →
        parent.postID ≠ c.postID →
        (s.createComment genId now c).1 = .error .parentDifferentPost ∧
        StorageErr.parentDifferentPost.isNotFoundClass = true))) ∧
    (∀ post, lookupPost s.posts c.postID = some post →
      post.commentsEnabled = true →
      (c.parentID = none ∨ ∃ pid parent, c.parentID = some pid ∧
        lookupComment s.comments pid = some parent ∧
        parent.postID = c.postID) →
      0 < c.content.length → c.content.length ≤ 2000 → c.postID ≠ 0 →
      lookupComment s.comments genId = none →
      ∃ c2, (s.createComment genId now c).1 = .ok c2) := by
  refine ⟨?_, ?_, ?_, ?_⟩
  · intro h
    rw [MemoryStorage.createComment]
    simp [hopen, h, StorageErr.isNotFoundClass]
  · intro post hpost hdis
    rw [MemoryStorage.createComment]
    simp [hopen, hpost, hdis, StorageErr.isCommentsDisabledClass]
  · intro post pid hpost hen hpar
    constructor
    · intro hnone
      rw [MemoryStorage.createComment]
      simp [hopen, hpost, hen, hpar, hnone, StorageErr.isNotFoundClass]
    · intro parent hparent hne
      rw [MemoryStorage.createComment]
      simp [hopen, hpost, hen, hpar, hparent, hne, StorageErr.isNotFoundClass]
  · intro post hpost hen hparok hlen1 hlen2 hpid hfresh
    have hvalid : (Comment.mk genId c.postID c.parentID c.content now).isValid = true := by
      simp [Comment.isValid, Comment.isValidComment, Comment.hasValidPost,
        Comment.mk, hlen1, hlen2, hpid]
    rw [MemoryStorage.createComment]
    rcases hparok with hnone | ⟨pid, parent, hpar, hparent, hsame⟩
    · simp only [hopen, hpost, hnone, if_neg, Bool.not_eq_true]
      rw [insertNewComment_eq]
      simp [hen, hvalid, hfresh]
    · simp only [hopen, hpost, hpar]
      rw [insertNewComment_eq]
      simp [hen, hparent, hsame, hvalid, hfresh]

/-- C1 witness: creating a reply to the existing root comment A on the
open post succeeds. -/
theorem c1_witness :
    ∃ c2, (MemoryStorage.createComment exStateA 99 50 cX).1 = .ok c2 :=
  (c1_create_comment_error_classes exStateA 99 50 cX rfl).2.2.2 exPost rfl rfl
    (Or.inr ⟨10, exA, rfl, rfl, rfl⟩) (by decide) (by decide) (by decide) rfl

/-- C2: when CreateComment fails, the posts and comments maps are exactly
as before, and the create-comment use case does not touch the
broadcaster: no publish occurs for the failed attempt. -/
theorem c2_error_no_partial_state (s : MemoryStorage) (ps : PubSub Comment)
    (genId now : Nat) (c : Comment) (e : StorageErr)
    (herr : (s.createComment genId now c).1 = .error e) :
    s.createComment genId now c = (.error e, s) ∧
    resolverCreateComment s ps genId now c = (.error e, s, ps) := by
  rcases createComment_cases s genId now c with ⟨e2, he⟩ | ⟨c2, hok⟩
  · rw [he] at herr
    simp only [Except.error.injEq] at herr
    subst herr
    refine ⟨he, ?_⟩
    unfold resolverCreateComment
    rw [he]
  · rw [hok] at herr
    simp at herr

/-- C2 witness: creating a comment against an absent post fails with the
post-not-found error, leaves the empty storage unchanged and does not
touch the broadcaster. -/
theorem c2_witness :
    MemoryStorage.createComment (MemoryStorage.mk [] [] false) 1 1 cX =
      (.error .postNotFound, MemoryStorage.mk [] [] false) ∧
    resolverCreateComment (MemoryStorage.mk [] [] false) (PubSub.new Comment)
        1 1 cX =
      (.error .postNotFound, MemoryStorage.mk [] [] false, PubSub.new Comment) :=
  c2_error_no_partial_state (MemoryStorage.mk [] [] false) (PubSub.new Comment)
    1 1 cX .postNotFound rfl

/-- C3: Publish is a total function (no error value in its type, never
blocks — the non-blocking send is the drop-on-full trySend): the buffer
configuration is untouched, an absent topic is a silent no-op, and on a
registered topic every subscriber is transformed pointwise by trySend —
enqueue when below capacity, drop for that subscriber alone when full. -/
theorem c3_publish_drop_not_block (α : Type) (ps : PubSub α)
    (topic : String) (data : α) :
    (ps.publish topic data).channelBufferSize = ps.channelBufferSize ∧
    (lookupTopic ps.subscribers topic = none → ps.publish topic data = ps) ∧
    (∀ subs, lookupTopic ps.subscribers topic = some subs →
      (ps.publish topic data).subscribers =
        setTopic ps.subscribers topic
          (subs.map (trySend ps.channelBufferSize (Message.mk topic data))) ∧
      (∀ sub : Subscriber α,
        ((sub.channel.length : Int) < ps.channelBufferSize →
          trySend ps.channelBufferSize (Message.mk topic data) sub =
            { sub with channel := sub.channel ++ [Message.mk topic data] }) ∧
        (ps.channelBufferSize ≤ (sub.channel.length : Int) →
          trySend ps.channelBufferSize (Message.mk topic data) sub = sub))) := by
  refine ⟨?_, ?_, ?_⟩
  · unfold PubSub.publish
    split
    · rfl
    · rfl
  · intro h
    unfold PubSub.publish
    rw [h]
  · intro subs h
    constructor
    · unfold PubSub.publish
      rw [h]
    · intro sub
      constructor
      · intro hlt
        unfold trySend
        rw [if_pos hlt]
      · intro hge
        unfold trySend
        rw [if_neg (not_lt.mpr hge)]

/-- C3 witness: on the saturated-plus-free pair, Publish maps trySend over
both subscribers of topic T. -/
theorem c3_witness :
    (psW.publish "T" 5).subscribers =
      setTopic psW.subscribers "T"
        ([subFull, subEmpty].map
          (trySend psW.channelBufferSize (Message.mk "T" 5))) :=
  ((c3_publish_drop_not_block Nat psW "T" 5).2.2 [subFull, subEmpty] rfl).1

/-- Looking a topic up right after setting it yields the stored value. -/
theorem lookupTopic_setTopic_self {α : Type}
    (l : List (String × List (Subscriber α))) (t : String)
    (v : List (Subscriber α)) : lookupTopic (setTopic l t v) t = some v := by
  induction l with
  | nil => simp [setTopic, lookupTopic]
  | cons e es ih =>
    by_cases he : e.1 = t
    · simp [setTopic, lookupTopic, he]
    · rw [show setTopic (e :: es) t v = e :: setTopic es t v from by
        simp [setTopic, he]]
      unfold lookupTopic
      rw [List.find?_cons_of_neg]
      · exact ih
      · simp [he]

/-- Looking a topic up right after removing it yields nothing. -/
theorem lookupTopic_removeTopic_self {α : Type}
    (l : List (String × List (Subscriber α))) (t : String) :
    lookupTopic (removeTopic l t) t = none := by
  induction l with
  | nil => simp [removeTopic, lookupTopic]
  | cons e es ih =>
    by_cases he : e.1 = t
    · rw [show removeTopic (e :: es) t = removeTopic es t from by
        simp [removeTopic, List.filter_cons, he]]
      exact ih
    · rw [show removeTopic (e :: es) t = e :: removeTopic es t from by
        simp [removeTopic, List.filter_cons, bne_iff_ne, he]]
      unfold lookupTopic
      rw [List.find?_cons_of_neg]
      · exact ih
      · simp [he]

/-- Entries of an updated registry: the new entry or an old one. -/
theorem mem_setTopic {α : Type} (l : List (String × List (Subscriber α)))
    (t : String) (v : List (Subscriber α))
    (e : String × List (Subscriber α)) (he : e ∈ setTopic l t v) :
    e = (t, v) ∨ e ∈ l := by
  induction l with
  | nil =>
    simp only [setTopic] at he
    exact Or.inl (List.mem_singleton.mp he)
  | cons f fs ih =>
    by_cases hft : f.1 = t
    · rw [show setTopic (f :: fs) t v = (t, v) :: fs from by
        simp [setTopic, hft]] at he
      rcases List.mem_cons.mp he with h | h
      · exact Or.inl h
      · exact Or.inr (List.mem_cons_of_mem _ h)
    · rw [show setTopic (f :: fs) t v = f :: setTopic fs t v from by
        simp [setTopic, hft]] at he
      rcases List.mem_cons.mp he with h | h
      · exact Or.inr (by simp [h])
      · rcases ih h with h2 | h2
        · exact Or.inl h2
        · exact Or.inr (List.mem_cons_of_mem _ h2)

/-- A successful topic lookup is a registry entry. -/
theorem lookupTopic_mem {α : Type} (l : List (String × List (Subscriber α)))
    (t : String) (v : List (Subscriber α))
    (h : lookupTopic l t = some v) : (t, v) ∈ l := by
  induction l with
  | nil => simp [lookupTopic] at h
  | cons e es ih =>
    unfold lookupTopic at h
    cases hbeq : (e.1 == t) with
    | false =>
      rw [List.find?_cons_of_neg] at h
      · exact List.mem_cons_of_mem _ (ih h)
      · simp [hbeq]
    | true =>
      rw [List.find?_cons_of_pos] at h
      · simp at h
        have h1 : e.1 = t := by simpa using hbeq
        have h2 : (t, v) = e := by
          rw [← h1, ← h]
        rw [h2]
        exact List.mem_cons_self e es
      · exact hbeq

/-- Registering a subscriber never produces an empty subscriber map. -/
theorem putSubscriber_ne_nil {α : Type} (subs : List (Subscriber α))
    (sub : Subscriber α) : putSubscriber subs sub ≠ [] := by
  cases subs with
  | nil => simp [putSubscriber]
  | cons t ts =>
    unfold putSubscriber
    split
    · simp
    · simp

/-- Every broadcaster operation preserves the registry invariant. -/
theorem topicsNonempty_apply {α : Type} (ps : PubSub α) (op : PSOp α)
    (h : TopicsNonempty ps) : TopicsNonempty (PSOp.apply ps op) := by
  cases op with
  | subscribe t i =>
    intro e he
    rcases mem_setTopic _ _ _ e he with he2 | he2
    · rw [he2]
      exact putSubscriber_ne_nil _ _
    · exact h e he2
  | unsubscribe t i =>
    simp only [PSOp.apply, PubSub.unsubscribe]
    split
    · exact h
    · rename_i subs hlook
      split
      · intro e he
        exact h e (List.mem_of_mem_filter he)
      · rename_i hne
        have hfil : List.filter (fun t => t.id != i) subs ≠ [] := by
          intro hnil
          exact hne (by simp [hnil])
        intro e he
        rcases mem_setTopic _ _ _ e he with he2 | he2
        · rw [he2]
          exact hfil
        · exact h e he2
  | publish t d =>
    simp only [PSOp.apply, PubSub.publish]
    split
    · exact h
    · rename_i subs hlook
      intro e he
      rcases mem_setTopic _ _ _ e he with he2 | he2
      · rw [he2]
        have hsubs : subs ≠ [] := h (t, subs) (lookupTopic_mem _ _ _ hlook)
        simpa using hsubs
      · exact h e he2
  | getCount t => exact h
  | closeAll =>
    intro e he
    simp only [PSOp.apply] at he
    have hnil : (ps.close).subscribers
        = ([] : List (String × List (Subscriber α))) := rfl
    rw [hnil] at he
    simp at he

/-- C8: from a fresh broadcaster, every operation sequence preserves the
registry invariant that each present topic has at least one subscriber;
and unsubscribing the sole subscriber of a topic leaves count 0 with the
topic entry itself removed. -/
theorem c8_topic_registry_invariant (α : Type) :
    (∀ (bufSize : Int) (ops : List (PSOp α)),
      TopicsNonempty ((PubSub.newWithConfig α bufSize).run ops)) ∧
    (∀ (ps : PubSub α) (topic subID : String),
      lookupTopic ps.subscribers topic = none →
      ((ps.subscribe topic subID).2.unsubscribe topic subID).getSubscribersCount
          topic = 0 ∧
      lookupTopic
        ((ps.subscribe topic subID).2.unsubscribe topic subID).subscribers
          topic = none) := by
  constructor
  · intro bufSize ops
    have hrun : ∀ (l : List (PSOp α)) (st : PubSub α), TopicsNonempty st →
        TopicsNonempty (st.run l) := by
      intro l
      induction l with
      | nil => intro st hst; exact hst
      | cons op l ih =>
        intro st hst
        exact ih _ (topicsNonempty_apply st op hst)
    refine hrun ops _ ?_
    intro e he
    have hnil : (PubSub.newWithConfig α bufSize).subscribers = [] := rfl
    rw [hnil] at he
    simp at he
  · intro ps topic subID hnone
    have hsub : (ps.subscribe topic subID).2.subscribers
        = setTopic ps.subscribers topic [Subscriber.mk subID []] := by
      unfold PubSub.subscribe
      rw [hnone]
      rfl
    have hlook2 : lookupTopic (ps.subscribe topic subID).2.subscribers topic
        = some [Subscriber.mk subID []] := by
      rw [hsub]
      exact lookupTopic_setTopic_self _ _ _
    have hunsub : ((ps.subscribe topic subID).2.unsubscribe topic subID).subscribers
        = removeTopic (ps.subscribe topic subID).2.subscribers topic := by
      unfold PubSub.unsubscribe
      rw [hlook2]
      simp [List.filter_cons]
    have hfinal : lookupTopic
        ((ps.subscribe topic subID).2.unsubscribe topic subID).subscribers topic
        = none := by
      rw [hunsub]
      exact lookupTopic_removeTopic_self _ _
    refine ⟨?_, hfinal⟩
    unfold PubSub.getSubscribersCount
    rw [hfinal]

/-- C8 witness: subscribe then unsubscribe of a sole subscriber on a fresh
broadcaster leaves count 0 and no topic entry. -/
theorem c8_witness :
    (((PubSub.new Nat).subscribe "T" "s1").2.unsubscribe "T"
        "s1").getSubscribersCount "T" = 0 ∧
    lookupTopic
      (((PubSub.new Nat).subscribe "T" "s1").2.unsubscribe "T"
          "s1").subscribers "T" = none :=
  (c8_topic_registry_invariant Nat).2 (PubSub.new Nat) "T" "s1" rfl

/-- Sorting a list whose keys are already strictly increasing leaves it
unchanged. -/
theorem sortByKey_eq_self_of_pairwise_lt {α : Type} (key : α → Nat)
    (l : List α) (h : l.Pairwise (fun a b => key a < key b)) :
    sortByKey key l = l := by
  induction l with
  | nil => rfl
  | cons x xs ih =>
    have hx := List.pairwise_cons.mp h
    rw [sortByKey, ih hx.2]
    cases xs with
    | nil => rfl
    | cons y ys =>
      rw [insertByKey, if_pos (hx.1 y (List.mem_cons_self y ys))]

/-- Let-free unfolding of paginate. -/
theorem paginate_def {α : Type} (l : List α) (limit offst : Int) :
    paginate l limit offst =
      if (if offst < 0 then (0 : Int) else offst).toNat ≥ l.length then []
      else (l.drop (if offst < 0 then (0 : Int) else offst).toNat).take
        (if limit ≤ 0 then (10 : Int) else limit).toNat := rfl

/-- paginate with limit 2 offset 0 is take 2. -/
theorem paginate_two_zero {α : Type} (l : List α) :
    paginate l 2 0 = l.take 2 := by
  rw [paginate_def]
  have h1 : (if (0 : Int) < 0 then (0 : Int) else 0).toNat = 0 := rfl
  have h2 : (if (2 : Int) ≤ 0 then (10 : Int) else 2).toNat = 2 := rfl
  rw [h1, h2]
  split
  · rename_i hge
    have hl : l = [] := List.length_eq_zero.mp (by omega)
    rw [hl]
    rfl
  · rw [List.drop_zero]

/-- paginate with limit 2 offset 2 is drop 2 then take 2. -/
theorem paginate_two_two {α : Type} (l : List α) :
    paginate l 2 2 = (l.drop 2).take 2 := by
  rw [paginate_def]
  have h1 : (if (2 : Int) < 0 then (0 : Int) else 2).toNat = 2 := rfl
  have h2 : (if (2 : Int) ≤ 0 then (10 : Int) else 2).toNat = 2 := rfl
  rw [h1, h2]
  split
  · rename_i hge
    rw [List.drop_eq_nil_of_le (by omega)]
    rfl
  · rfl

/-- paginate past the end is empty. -/
theorem paginate_empty_of_ge {α : Type} (l : List α) (limit offst : Int)
    (h : (l.length : Int) ≤ offst) : paginate l limit offst = [] := by
  have hoff : (if offst < 0 then (0 : Int) else offst) = offst :=
    if_neg (by omega)
  rw [paginate_def, hoff, if_pos (by omega)]

/-- A limit at most 0 behaves as the default limit 10. -/
theorem paginate_limit_clamp {α : Type} (l : List α) (limit offst : Int)
    (h : limit ≤ 0) : paginate l limit offst = paginate l 10 offst := by
  rw [paginate_def, paginate_def, if_pos h, if_neg (by norm_num : ¬(10 : Int) ≤ 0)]

/-- A negative offset behaves as offset 0. -/
theorem paginate_offset_clamp {α : Type} (l : List α) (limit offst : Int)
    (h : offst < 0) : paginate l limit offst = paginate l limit 0 := by
  rw [paginate_def, paginate_def, if_pos h,
    if_neg (by norm_num : ¬(0 : Int) < 0)]

/-- On an open storage with an existing post, GetRootCommentsByPostID is
the paginated sort of the stored root comments. -/
theorem getRoot_eq (s : MemoryStorage) (postID : Nat)
    (hopen : s.closed = false)
    (hpost : ∃ post, lookupPost s.posts postID = some post)
    (limit offst : Int) :
    s.getRootCommentsByPostID postID limit offst =
      .ok (paginate (sortByKey (fun c => c.createdAt) (s.rootsOf postID))
        limit offst) := by
  obtain ⟨post, hp⟩ := hpost
  unfold MemoryStorage.getRootCommentsByPostID
  rw [if_neg (by simp [hopen]), if_neg (by simp [hp])]

/-- C6: with root comments stored in strictly increasing creation order,
the two pages (limit 2, offset 0) and (limit 2, offset 2) are exactly the
first four root comments in creation order with no duplicates and no
gaps; an offset at or past the count yields the empty sequence; a
non-positive limit behaves as the default limit 10; a negative offset
behaves as offset 0. -/
theorem c6_pagination_determinism (s : MemoryStorage) (postID : Nat)
    (hopen : s.closed = false)
    (hpost : ∃ post, lookupPost s.posts postID = some post)
    (hsorted : (s.rootsOf postID).Pairwise
      (fun a b => a.createdAt < b.createdAt)) :
    s.getRootCommentsByPostID postID 2 0 =
      .ok ((s.rootsOf postID).take 2) ∧
    s.getRootCommentsByPostID postID 2 2 =
      .ok (((s.rootsOf postID).drop 2).take 2) ∧
    (s.rootsOf postID).take 2 ++ ((s.rootsOf postID).drop 2).take 2 =
      (s.rootsOf postID).take 4 ∧
    ((s.rootsOf postID).take 4).Nodup ∧
    (∀ limit offst : Int, ((s.rootsOf postID).length : Int) ≤ offst →
      s.getRootCommentsByPostID postID limit offst = .ok []) ∧
    (∀ limit offst : Int, limit ≤ 0 →
      s.getRootCommentsByPostID postID limit offst =
        s.getRootCommentsByPostID postID 10 offst) ∧
    (∀ limit offst : Int, offst < 0 →
      s.getRootCommentsByPostID postID limit offst =
        s.getRootCommentsByPostID postID limit 0) := by
  have hfix : sortByKey (fun c => c.createdAt) (s.rootsOf postID)
      = s.rootsOf postID :=
    sortByKey_eq_self_of_pairwise_lt _ _ hsorted
  refine ⟨?_, ?_, ?_, ?_, ?_, ?_, ?_⟩
  · rw [getRoot_eq s postID hopen hpost, hfix, paginate_two_zero]
  · rw [getRoot_eq s postID hopen hpost, hfix, paginate_two_two]
  · rw [show (4 : Nat) = 2 + 2 from rfl, List.take_add]
  · have hnd : (s.rootsOf postID).Nodup := by
      refine hsorted.imp ?_
      intro a b hab heq
      rw [heq] at hab
      exact lt_irrefl _ hab
    exact hnd.sublist (List.take_sublist _ _)
  · intro limit offst hge
    rw [getRoot_eq s postID hopen hpost, hfix,
      paginate_empty_of_ge _ _ _ hge]
  · intro limit offst hlim
    rw [getRoot_eq s postID hopen hpost, getRoot_eq s postID hopen hpost,
      paginate_limit_clamp _ _ _ hlim]
  · intro limit offst hoff
    rw [getRoot_eq s postID hopen hpost, getRoot_eq s postID hopen hpost,
      paginate_offset_clamp _ _ _ hoff]

/-- C6 witness: the first page of the five-root-comment fixture is its
first two root comments in creation order. -/
theorem c6_witness :
    MemoryStorage.getRootCommentsByPostID exPag 1 2 0 =
      .ok ((exPag.rootsOf 1).take 2) :=
  (c6_pagination_determinism exPag 1 rfl ⟨exPost, rfl⟩ (by decide)).1

/-- Membership after insertion: the new element or an old one. -/
theorem mem_insertByKey {α : Type} (key : α → Nat) (x y : α) (l : List α) :
    y ∈ insertByKey key x l ↔ y = x ∨ y ∈ l := by
  induction l with
  | nil => simp [insertByKey]
  | cons z zs ih =>
    unfold insertByKey
    split
    · simp [List.mem_cons]
    · simp only [List.mem_cons, ih]
      tauto

/-- Membership is preserved by sortByKey. -/
theorem mem_sortByKey {α : Type} (key : α → Nat) (y : α) (l : List α) :
    y ∈ sortByKey key l ↔ y ∈ l := by
  induction l with
  | nil => simp [sortByKey]
  | cons x xs ih =>
    rw [sortByKey, mem_insertByKey]
    simp only [List.mem_cons, ih]

/-- The head of an insertion is the inserted element or the old head. -/
theorem insertByKey_head_cases {α : Type} (key : α → Nat) (x : α)
    (l : List α) :
    (insertByKey key x l).head? = some x ∨
    (insertByKey key x l).head? = l.head? := by
  cases l with
  | nil => exact Or.inl rfl
  | cons y ys =>
    unfold insertByKey
    split
    · exact Or.inl rfl
    · exact Or.inr rfl

/-- Insertion into a key-ascending chain yields a key-ascending chain. -/
theorem chain_insertByKey {α : Type} (key : α → Nat) (x : α) (l : List α)
    (h : List.Chain' (fun a b => key a ≤ key b) l) :
    List.Chain' (fun a b => key a ≤ key b) (insertByKey key x l) := by
  induction l with
  | nil => simp [insertByKey]
  | cons y ys ih =>
    unfold insertByKey
    split
    · rename_i hlt
      exact List.chain'_cons.mpr ⟨le_of_lt hlt, h⟩
    · rename_i hnlt
      rw [List.chain'_cons']
      refine ⟨?_, ih h.tail⟩
      intro z hz
      rcases insertByKey_head_cases key x ys with hh | hh
      · rw [hh] at hz
        simp only [Option.mem_def, Option.some.injEq] at hz
        rw [← hz]
        exact not_lt.mp hnlt
      · rw [hh] at hz
        exact (List.chain'_cons'.mp h).1 z hz

/-- The output of sortByKey is a key-ascending chain. -/
theorem chain_sortByKey {α : Type} (key : α → Nat) (l : List α) :
    List.Chain' (fun a b => key a ≤ key b) (sortByKey key l) := by
  induction l with
  | nil => simp [sortByKey]
  | cons x xs ih => exact chain_insertByKey key x _ ih

/-- The forest predicate is membership-wise. -/
theorem forestLevelsSorted_iff (ts : List CommentTree) :
    forestLevelsSorted ts ↔ ∀ t ∈ ts, t.levelsSorted := by
  induction ts with
  | nil => simp [forestLevelsSorted]
  | cons t ts ih =>
    rw [forestLevelsSorted, ih]
    simp [List.mem_cons]

/-- C4: every level produced by the in-memory tree builder is sorted by
creation time ascending, at every depth; and on the concrete chain
A (root), B (parent A), C (parent B) the tree is the single nested path
A-B-C with GetChildrenCount/HasChildren 1/true at A and B and 0/false
at C. -/
theorem c4_tree_shape_and_order :
    (∀ (fuel : Nat) (comments : List Comment) (parentID : Option Nat),
      timeOrdered (buildCommentTreeM fuel comments parentID) ∧
      forestLevelsSorted (buildCommentTreeM fuel comments parentID)) ∧
    exState.getCommentTree 1 =
      .ok [CommentTree.node exA [CommentTree.node exB
        [CommentTree.node exC []]]] ∧
    (CommentTree.node exA [CommentTree.node exB
      [CommentTree.node exC []]]).getChildrenCount = 1 ∧
    (CommentTree.node exA [CommentTree.node exB
      [CommentTree.node exC []]]).hasChildren = true ∧
    (CommentTree.node exB [CommentTree.node exC []]).getChildrenCount = 1 ∧
    (CommentTree.node exB [CommentTree.node exC []]).hasChildren = true ∧
    (CommentTree.node exC []).getChildrenCount = 0 ∧
    (CommentTree.node exC []).hasChildren = false := by
  refine ⟨?_, ?_, rfl, rfl, rfl, rfl, rfl, rfl⟩
  · intro fuel
    induction fuel with
    | zero =>
      intro comments parentID
      exact ⟨List.chain'_nil, trivial⟩
    | succ fuel ih =>
      intro comments parentID
      constructor
      · exact chain_sortByKey _ _
      · rw [forestLevelsSorted_iff]
        intro t ht
        rw [buildCommentTreeM, mem_sortByKey] at ht
        obtain ⟨c, hc, hteq⟩ := List.mem_map.mp ht
        rw [← hteq]
        rw [CommentTree.levelsSorted]
        exact ih comments (some c.id)
  · rfl

/-- The parent test succeeds exactly on the equal parent reference. -/
theorem parentMatches_iff (pid cp : Option Nat) :
    parentMatches pid cp = true ↔ cp = pid := by
  cases pid with
  | none => cases cp <;> simp [parentMatches]
  | some p =>
    cases cp with
    | none => simp [parentMatches]
    | some q =>
      simp only [parentMatches, beq_iff_eq, Option.some.injEq]
      exact eq_comm

/-- C7 counterexample: on the two-root-comment set enumerated
newest-first, the pure TreeConverter keeps the input order (ids 22 then
21) while the in-memory builder sorts by creation time (21 then 22), so
the two tree shapes differ. -/
theorem c7_counterexample :
    (TreeConverter.buildCommentTree cvList).map (fun t => t.comment.id) =
      [22, 21] ∧
    (buildCommentTreeM (cvList.length + 1) cvList none).map
      (fun t => t.comment.id) = [21, 22] ∧
    TreeConverter.buildCommentTree cvList ≠
      buildCommentTreeM (cvList.length + 1) cvList none := by
  refine ⟨rfl, rfl, ?_⟩
  intro h
  exact absurd (congrArg (List.map (fun t => t.comment.id)) h) (by decide)

/-- C7 amended: the two tree builders agree whenever each sibling group
of the flat list is already in strictly ascending creation order (as the
durable backend's level-then-created-at ordered query result is, for
distinct timestamps); in general the converter keeps input order while
the in-memory builder sorts. -/
theorem c7_amended_converter_agreement (l : List Comment)
    (hsib : l.Pairwise
      (fun a b => a.parentID = b.parentID → a.createdAt < b.createdAt)) :
    (∀ (fuel : Nat) (parentID : Option Nat),
      buildTreeConv fuel l parentID = buildCommentTreeM fuel l parentID) ∧
    TreeConverter.buildCommentTree l =
      buildCommentTreeM (l.length + 1) l none := by
  have hconv : ∀ (fuel : Nat) (parentID : Option Nat),
      buildTreeConv fuel l parentID = buildCommentTreeM fuel l parentID := by
    intro fuel
    induction fuel with
    | zero => intro pid; rfl
    | succ fuel ih =>
      intro pid
      rw [buildTreeConv, buildCommentTreeM]
      have hmap : (l.filter (fun c => parentMatches pid c.parentID)).map
            (fun c => CommentTree.node c (buildTreeConv fuel l (some c.id)))
          = (l.filter (fun c => parentMatches pid c.parentID)).map
            (fun c => CommentTree.node c (buildCommentTreeM fuel l (some c.id))) := by
        refine List.map_congr_left ?_
        intro c hc
        rw [ih (some c.id)]
      rw [hmap]
      refine (sortByKey_eq_self_of_pairwise_lt _ _ ?_).symm
      rw [List.pairwise_map]
      have hp : (l.filter (fun c => parentMatches pid c.parentID)).Pairwise
          (fun a b => a.parentID = b.parentID → a.createdAt < b.createdAt) :=
        hsib.filter _
      refine hp.imp_of_mem ?_
      intro a b ha hb hr
      have hpa : a.parentID = pid :=
        (parentMatches_iff pid a.parentID).mp (List.mem_filter.mp ha).2
      have hpb : b.parentID = pid :=
        (parentMatches_iff pid b.parentID).mp (List.mem_filter.mp hb).2
      exact hr (by rw [hpa, hpb])
  refine ⟨hconv, ?_⟩
  unfold TreeConverter.buildCommentTree
  split
  · rename_i hemp
    rw [List.isEmpty_iff.mp hemp]
    rfl
  · exact hconv _ none

/-- C7 witness: on the creation-ordered enumeration of the same two root
comments, converter and in-memory builder agree. -/
theorem c7_witness :
    TreeConverter.buildCommentTree [cvA, cvB] =
      buildCommentTreeM ([cvA, cvB].length + 1) [cvA, cvB] none :=
  (c7_amended_converter_agreement [cvA, cvB] (by decide)).2

/-- Unfolding of the pointer-level insertNewComment. -/
theorem pInsertNewComment_eq (s : PMemoryStorage) (genId now : Nat)
    (c : PComment) :
    s.insertNewComment genId now c =
      (if !(PComment.mk genId c.postID c.parentPtr c.content now).isValid then
        (.error .errInvalidInput, s)
      else if (pLookupComment s.comments genId).isSome then
        (.error .errDuplicate, s)
      else (.ok (PComment.mk genId c.postID c.parentPtr c.content now),
        { s with comments :=
            s.comments ++ [PComment.mk genId c.postID c.parentPtr c.content now] })) :=
  rfl

/-- C9 counterexample: CreateComment copies the struct but shares the
ParentID pointer (address 100) between the caller's input, the stored
comment and the returned comment; a caller write through that pointer
(99 into address 100) changes what a subsequent GetComment read denotes
(parent 10 before, parent 99 after), so the returned value is not an
independent copy of backend state. -/
theorem c9_counterexample :
    PMemoryStorage.createComment hp0 pS 11 20 pIn =
      (.ok (PComment.mk 11 1 (some 100) "B" 20),
        PMemoryStorage.mk [exPost] [pA, PComment.mk 11 1 (some 100) "B" 20]
          false) ∧
    (PComment.mk 11 1 (some 100) "B" 20).parentPtr = pIn.parentPtr ∧
    (PMemoryStorage.mk [exPost] [pA, PComment.mk 11 1 (some 100) "B" 20]
        false).getComment 11 = .ok (PComment.mk 11 1 (some 100) "B" 20) ∧
    ((PMemoryStorage.mk [exPost] [pA, PComment.mk 11 1 (some 100) "B" 20]
        false).getComment 11).map (PComment.view hp0) =
      .ok (Comment.mk 11 1 (some 10) "B" 20) ∧
    ((PMemoryStorage.mk [exPost] [pA, PComment.mk 11 1 (some 100) "B" 20]
        false).getComment 11).map (PComment.view (hp0.write 100 99)) =
      .ok (Comment.mk 11 1 (some 99) "B" 20) :=
  ⟨rfl, rfl, rfl, rfl, rfl⟩

/-- C9 amended: the returned structs are fresh value copies in every
field except ParentID — the ParentID pointer of a created comment is the
caller's own pointer, also stored; GetComment returns the stored record
(sharing its pointer); and heap writes at any address not held by a
stored comment's ParentID leave the denotation of every read unchanged. -/
theorem c9_amended_shallow_copy :
    (∀ (h : Heap) (s : PMemoryStorage) (genId now : Nat) (c ret : PComment)
      (s2 : PMemoryStorage),
      PMemoryStorage.createComment h s genId now c = (.ok ret, s2) →
      ret.parentPtr = c.parentPtr ∧ s2.comments = s.comments ++ [ret]) ∧
    (∀ (s : PMemoryStorage) (id : Nat) (pc : PComment),
      s.getComment id = .ok pc → pLookupComment s.comments id = some pc) ∧
    (∀ (h : Heap) (a v : Nat) (s : PMemoryStorage),
      (∀ pc ∈ s.comments, pc.parentPtr ≠ some a) →
      ∀ id, (s.getComment id).map (PComment.view (h.write a v)) =
        (s.getComment id).map (PComment.view h)) := by
  refine ⟨?_, ?_, ?_⟩
  · intro h s genId now c ret s2 hok
    unfold PMemoryStorage.createComment at hok
    split at hok
    · simp at hok
    split at hok
    · simp at hok
    split at hok
    · simp at hok
    split at hok
    · rw [pInsertNewComment_eq] at hok
      split at hok
      · simp at hok
      split at hok
      · simp at hok
      · simp only [Prod.mk.injEq, Except.ok.injEq] at hok
        refine ⟨by rw [← hok.1], ?_⟩
        rw [← hok.2, ← hok.1]
    · split at hok
      · simp at hok
      split at hok
      · simp at hok
      · rw [pInsertNewComment_eq] at hok
        split at hok
        · simp at hok
        split at hok
        · simp at hok
        · simp only [Prod.mk.injEq, Except.ok.injEq] at hok
          refine ⟨by rw [← hok.1], ?_⟩
          rw [← hok.2, ← hok.1]
  · intro s id pc hok
    unfold PMemoryStorage.getComment at hok
    split at hok
    · simp at hok
    split at hok
    · simp at hok
    · rename_i c hc
      simp only [Except.ok.injEq] at hok
      rw [hc, hok]
  · intro h a v s hfree id
    unfold PMemoryStorage.getComment
    split
    · rfl
    split
    · rfl
    · rename_i pc hc
      have hmem : pc ∈ s.comments := List.mem_of_find?_eq_some hc
      have hne : pc.parentPtr ≠ some a := hfree pc hmem
      have hview : PComment.view (Heap.write h a v) pc = PComment.view h pc := by
        unfold PComment.view
        cases hp : pc.parentPtr with
        | none => rfl
        | some p =>
          have hpa : p ≠ a := by
            intro hcontra
            rw [hcontra] at hp
            exact hne hp
          have hr : Heap.read (Heap.write h a v) p = Heap.read h p := by
            show (if p = a then v else h p) = h p
            rw [if_neg hpa]
          rw [show Option.map (fun x => Heap.read (Heap.write h a v) x) (some p)
              = some (Heap.read (Heap.write h a v) p) from rfl, hr]
          rfl
      show Except.ok (PComment.view (Heap.write h a v) pc)
          = Except.ok (PComment.view h pc)
      rw [hview]

/-- C9 witness for the amended statement: a heap write at the unaliased
address 200 leaves the denotation of GetComment on the stored state
unchanged. -/
theorem c9_witness :
    ((pS.getComment 10).map (PComment.view (hp0.write 200 5))) =
      ((pS.getComment 10).map (PComment.view hp0)) :=
  c9_amended_shallow_copy.2.2 hp0 200 5 pS (by decide) 10

/-- Transitivity of the descendant relation. -/
theorem DescOf.trans {l : List Comment} {a b d : Nat} (h1 : DescOf l a b) :
    DescOf l b d → DescOf l a d := by
  induction h1 with
  | refl a => exact fun h2 => h2
  | child a b c hc hp hs ih =>
    intro h2
    exact DescOf.child a d c hc hp (ih h2)

/-- The descendant relation is monotone in the comment list. -/
theorem DescOf.mono {l l2 : List Comment} {a b : Nat}
    (hsub : ∀ x ∈ l2, x ∈ l) (h : DescOf l2 a b) : DescOf l a b := by
  induction h with
  | refl a => exact DescOf.refl a
  | child a b c hc hp hs ih => exact DescOf.child a b c (hsub c hc) hp ih

/-- A derivation survives restriction to a list that keeps every comment
lying on a chain towards the endpoint. -/
theorem DescOf.restrict {l l2 : List Comment} {a b : Nat}
    (h : DescOf l a b) :
    (∀ w ∈ l, DescOf l w.id b → w ∈ l2) → DescOf l2 a b := by
  induction h with
  | refl a => exact fun _ => DescOf.refl a
  | child a b c hc hp hs ih =>
    intro H
    exact DescOf.child a b c (H c hc hs) hp (ih H)

/-- First-step decomposition of a descendant derivation. -/
theorem descOf_cases {l : List Comment} {a n : Nat} (h : DescOf l a n) :
    n = a ∨ ∃ c, c ∈ l ∧ c.parentID = some a ∧ DescOf l c.id n := by
  cases h with
  | refl => exact Or.inl rfl
  | child a n c hc hp hd => exact Or.inr ⟨c, hc, hp, hd⟩

/-- The cascade deletion only removes entries: its result is a sublist. -/
theorem deleteRec_sublist : ∀ (fuel : Nat) (l : List Comment) (id : Nat),
    (deleteCommentRec fuel l id).Sublist l := by
  intro fuel
  induction fuel with
  | zero => intro l id; exact List.Sublist.refl l
  | succ fuel ih =>
    intro l id
    have hf : ∀ (cs acc : List Comment),
        (cs.foldl (fun a c => deleteCommentRec fuel a c.id) acc).Sublist acc := by
      intro cs
      induction cs with
      | nil => intro acc; exact List.Sublist.refl acc
      | cons c cs ihc =>
        intro acc
        simp only [List.foldl_cons]
        exact (ihc (deleteCommentRec fuel acc c.id)).trans (ih acc c.id)
    exact (List.filter_sublist _).trans (hf _ l)

/-- Exact characterization of the cascade deletion: with a rank function
witnessing acyclicity (parents rank strictly below children) and enough
fuel, an entry survives deleteCommentRec exactly when it is not a
descendant-or-self of the deleted id. -/
theorem deleteRec_mem_iff : ∀ (fuel : Nat) (l : List Comment) (id : Nat)
    (R : Nat → Nat),
    (∀ c ∈ l, ∀ p, c.parentID = some p → R p < R c.id) →
    (∀ c ∈ l, R c.id < fuel + R id) →
    ∀ y, y ∈ deleteCommentRec fuel l id ↔
      (y ∈ l ∧ ¬ DescOf l id y.id) := by
  intro fuel
  induction fuel with
  | zero =>
    intro l id R hrank hfuel y
    constructor
    · intro hy
      refine ⟨hy, ?_⟩
      intro hdesc
      rcases descOf_cases hdesc with heq | ⟨c, hcl, hcp, _⟩
      · have := hfuel y hy
        rw [heq] at this
        omega
      · have h1 := hrank c hcl id hcp
        have h2 := hfuel c hcl
        omega
    · intro hy
      exact hy.1
  | succ fuel ih =>
    intro l id R hrank hfuel y
    have hfold : ∀ (cs : List Comment),
        (∀ c ∈ cs, c ∈ l ∧ c.parentID = some id) →
        ∀ (acc : List Comment) (P : Nat → Prop),
        (∀ z, z ∈ acc ↔ (z ∈ l ∧ P z.id)) →
        (∀ (w : Comment) (x : Nat), w ∈ l → DescOf l w.id x → P x → P w.id) →
        ∀ z, z ∈ cs.foldl (fun a c => deleteCommentRec fuel a c.id) acc ↔
          (z ∈ l ∧ (P z.id ∧ ∀ c ∈ cs, ¬ DescOf l c.id z.id)) := by
      intro cs
      induction cs with
      | nil =>
        intro _ acc P hacc _ z
        simp only [List.foldl_nil]
        rw [hacc z]
        simp
      | cons c cs ihc =>
        intro hcs acc P hacc hup z
        simp only [List.foldl_cons]
        have hcl : c ∈ l := (hcs c (List.mem_cons_self c cs)).1
        have hcp : c.parentID = some id := (hcs c (List.mem_cons_self c cs)).2
        have hsubacc : ∀ x ∈ acc, x ∈ l := fun x hx => ((hacc x).mp hx).1
        have hrank2 : ∀ x ∈ acc, ∀ p, x.parentID = some p → R p < R x.id :=
          fun x hx => hrank x (hsubacc x hx)
        have hfuel2 : ∀ x ∈ acc, R x.id < fuel + R c.id := by
          intro x hx
          have h1 := hfuel x (hsubacc x hx)
          have h2 := hrank c hcl id hcp
          omega
        have hacc2 : ∀ z2, z2 ∈ deleteCommentRec fuel acc c.id ↔
            (z2 ∈ acc ∧ ¬ DescOf acc c.id z2.id) :=
          ih acc c.id R hrank2 hfuel2
        have htrans : ∀ z2, z2 ∈ acc →
            (DescOf acc c.id z2.id ↔ DescOf l c.id z2.id) := by
          intro z2 hz2
          constructor
          · exact DescOf.mono hsubacc
          · intro hdl
            refine DescOf.restrict hdl ?_
            intro w hwl hwz
            have hPz : P z2.id := ((hacc z2).mp hz2).2
            have hPw : P w.id := hup w z2.id hwl hwz hPz
            exact (hacc w).mpr ⟨hwl, hPw⟩
        have hacc2l : ∀ z2, z2 ∈ deleteCommentRec fuel acc c.id ↔
            (z2 ∈ l ∧ (P z2.id ∧ ¬ DescOf l c.id z2.id)) := by
          intro z2
          rw [hacc2 z2]
          constructor
          · rintro ⟨hza, hnd⟩
            have hzl := (hacc z2).mp hza
            refine ⟨hzl.1, hzl.2, ?_⟩
            intro hdl
            exact hnd ((htrans z2 hza).mpr hdl)
          · rintro ⟨hzl, hPz, hnd⟩
            have hza : z2 ∈ acc := (hacc z2).mpr ⟨hzl, hPz⟩
            exact ⟨hza, fun hda => hnd ((htrans z2 hza).mp hda)⟩
        have hup2 : ∀ (w : Comment) (x : Nat), w ∈ l → DescOf l w.id x →
            (P x ∧ ¬ DescOf l c.id x) → (P w.id ∧ ¬ DescOf l c.id w.id) := by
          rintro w x hwl hwx ⟨hPx, hnd⟩
          refine ⟨hup w x hwl hwx hPx, ?_⟩
          intro hdc
          exact hnd (DescOf.trans hdc hwx)
        have hmain := ihc (fun c2 hc2 => hcs c2 (List.mem_cons_of_mem _ hc2))
          (deleteCommentRec fuel acc c.id)
          (fun n => P n ∧ ¬ DescOf l c.id n) hacc2l hup2 z
        rw [hmain]
        constructor
        · rintro ⟨hzl, ⟨hPz, hndc⟩, hall⟩
          refine ⟨hzl, hPz, ?_⟩
          intro c2 hc2
          rcases List.mem_cons.mp hc2 with rfl | hc2
          · exact hndc
          · exact hall c2 hc2
        · rintro ⟨hzl, hPz, hall⟩
          exact ⟨hzl, ⟨hPz, hall c (List.mem_cons_self c cs)⟩,
            fun c2 hc2 => hall c2 (List.mem_cons_of_mem _ hc2)⟩
    have hchildren : ∀ c ∈ l.filter (fun c => c.parentID == some id),
        c ∈ l ∧ c.parentID = some id := by
      intro c hc
      have hmf := List.mem_filter.mp hc
      exact ⟨hmf.1, by simpa using hmf.2⟩
    have hbase : ∀ z : Comment, z ∈ l ↔ (z ∈ l ∧ (fun _ : Nat => True) z.id) := by
      intro z
      simp
    have hupT : ∀ (w : Comment) (x : Nat), w ∈ l → DescOf l w.id x →
        (fun _ : Nat => True) x → (fun _ : Nat => True) w.id := by
      intro w x _ _ _
      trivial
    show y ∈ ((l.filter (fun c => c.parentID == some id)).foldl
        (fun a c => deleteCommentRec fuel a c.id) l).filter
        (fun c => c.id != id) ↔ _
    rw [List.mem_filter,
      hfold (l.filter (fun c => c.parentID == some id)) hchildren l
        (fun _ : Nat => True) hbase hupT y]
    constructor
    · rintro ⟨⟨hyl, -, hall⟩, hne⟩
      refine ⟨hyl, ?_⟩
      intro hdesc
      rcases descOf_cases hdesc with heq | ⟨c, hcl, hcp, hdc⟩
      · rw [heq] at hne
        simp at hne
      · exact hall c (List.mem_filter.mpr ⟨hcl, by simp [hcp]⟩) hdc
    · rintro ⟨hyl, hnd⟩
      refine ⟨⟨hyl, trivial, ?_⟩, ?_⟩
      · intro c hc hdc
        have hcc := hchildren c hc
        exact hnd (DescOf.child id y.id c hcc.1 hcc.2 hdc)
      · simp only [bne_iff_ne, ne_eq]
        intro heq
        rw [heq] at hnd
        exact hnd (DescOf.refl id)

/-- C5: DeleteComment fails with NotFound on an absent id; on a present
id (with a rank function witnessing acyclicity of the stored parent
graph) it removes exactly the transitive closure of descendants of the
id, keeping every other comment in place (a sublist, so order and values
are untouched) and leaving the posts map alone; deleting A in the
concrete A-B-C chain leaves the post with no comments. -/
theorem c5_cascade_delete (s : MemoryStorage) (id : Nat) (R : Nat → Nat)
    (hopen : s.closed = false)
    (hrank : ∀ c ∈ s.comments, ∀ p, c.parentID = some p → R p < R c.id)
    (hbound : ∀ c ∈ s.comments, R c.id < s.comments.length + R id) :
    (lookupComment s.comments id = none →
      s.deleteComment id = (.error .errNotFound, s)) ∧
    (∀ c0, lookupComment s.comments id = some c0 →
      (s.deleteComment id).1 = .ok () ∧
      (s.deleteComment id).2.posts = s.posts ∧
      ((s.deleteComment id).2.comments).Sublist s.comments ∧
      (∀ y, y ∈ (s.deleteComment id).2.comments ↔
        (y ∈ s.comments ∧ ¬ DescOf s.comments id y.id))) ∧
    (MemoryStorage.deleteComment exState 10).2.getCommentsByPostID 1 =
      .ok [] := by
  refine ⟨?_, ?_, rfl⟩
  · intro hnone
    unfold MemoryStorage.deleteComment
    rw [if_neg (by simp [hopen]), if_pos (by simp [hnone])]
  · intro c0 hsome
    have hdel : s.deleteComment id = (.ok (),
        { s with comments :=
            deleteCommentRec s.comments.length s.comments id }) := by
      unfold MemoryStorage.deleteComment
      rw [if_neg (by simp [hopen]), if_neg (by simp [hsome])]
    rw [hdel]
    refine ⟨rfl, rfl, deleteRec_sublist _ _ _, ?_⟩
    intro y
    exact deleteRec_mem_iff s.comments.length s.comments id R hrank hbound y

/-- C5 witness: deleting the root A of the concrete A-B-C chain succeeds,
keeps the posts map, is a sublist of the old comments, and keeps exactly
the non-descendants of A. -/
theorem c5_witness :
    (MemoryStorage.deleteComment exState 10).1 = .ok () ∧
    (MemoryStorage.deleteComment exState 10).2.posts = exState.posts ∧
    ((MemoryStorage.deleteComment exState 10).2.comments).Sublist
      exState.comments ∧
    (∀ y, y ∈ (MemoryStorage.deleteComment exState 10).2.comments ↔
      (y ∈ exState.comments ∧ ¬ DescOf exState.comments 10 y.id)) :=
  (c5_cascade_delete exState 10 (fun n => n) rfl
    (by
      intro c hc p hp
      fin_cases hc <;> simp_all [exA, exB, exC] <;> omega)
    (by
      intro c hc
      fin_cases hc <;> simp [exA, exB, exC, exState])).2.1 exA rfl

end CommentsSystem
